import Mathlib

/-!
Verification of the download-orchestration core of the YoutubeConverter
repository against its natural-language specification.

The development shallowly embeds the relevant Python code:

* `src/core/yt_manager.py`: `build_ydl_opts` (format-selector construction),
  `Downloader` (`run`, `pause`, `resume`, `stop`, `_hook_builder`,
  `_start_meta_fetch`, `_needs_metadata`), modelled as a small-step state
  machine whose environment actions are metadata-fetch completions, loop
  iterations (with the download collaborator outcome), and control calls.
* `src/widgets/step1_link.py`: `_classify_url`, `_handle_url`,
  `_upsert_selected`.

Python dictionaries are modelled as association lists over a flat value
type `PV`; Python truthiness is `PV.truthy`.  Machine-level concurrency is
modelled by letting metadata-completion callbacks interleave with loop
iterations at iteration granularity (the callbacks run on fetcher threads
and mutate shared state directly in the source).
-/

namespace YtConv

/-- A Python value, flattened to what the embedded code inspects.  A
thumbnail-list entry is represented by its `url` field only, since the
source only ever reads `entry.get("url")` from such entries. -/
inductive PV where
  | vnone
  | vbool (b : Bool)
  | vint (n : Int)
  | vstr (s : String)
  | vthumbs (xs : List (Option String))
deriving DecidableEq, Repr

namespace PV

/-- Python truthiness of a value (`bool(v)`). -/
def truthy : PV → Bool
  | vnone => false
  | vbool b => b
  | vint n => n != 0
  | vstr s => s ≠ ""
  | vthumbs xs => ¬ xs.isEmpty

/-- Python `a or b`: the first operand when truthy, otherwise the second. -/
def pyOr (a b : PV) : PV := if a.truthy then a else b

/-- Rendering used when a value is spliced into an f-string. -/
def render : PV → String
  | vnone => "None"
  | vbool b => if b then "True" else "False"
  | vint n => toString n
  | vstr s => s
  | vthumbs _ => "[...]"

end PV

/-- A Python dict, keyed by strings (insertion-ordered association list). -/
abbrev Dict := List (String × PV)

/-- First binding of key `k`, as Python dict lookup (`d[k]` / `d.get(k)`
returning `some` when the key is present). -/
def dlookup (d : Dict) (k : String) : Option PV :=
  match d with
  | [] => none
  | (k', v) :: rest => if k' = k then some v else dlookup rest k

/-- Python `d.get(k)`: the bound value, or `None` when absent. -/
def dget (d : Dict) (k : String) : PV :=
  (dlookup d k).getD .vnone

/-- Whether a dict contains the key `k`. -/
def dhasKey (d : Dict) (k : String) : Bool :=
  (dlookup d k).isSome

/-- Python `{**a, **b}`: all of `a`, with every key present in `b` rebound
to the value from `b`, and keys only in `b` appended in order. -/
def dmerge (a b : Dict) : Dict :=
  (a.map fun kv => (kv.1, match dlookup b kv.1 with
    | some v => v
    | none => kv.2))
  ++ b.filter fun kv => !dhasKey a kv.1

/-- `it.get("webpage_url") or it.get("url")`, the key identifying an item
both in `Downloader.run` and in `Step1LinkWidget._upsert_selected`. -/
def itemKeyUrl (it : Dict) : PV :=
  PV.pyOr (dget it "webpage_url") (dget it "url")

/-- `Step1LinkWidget._upsert_selected`: insert `info` into the selection,
merging it over the first entry with the same url key, else appending. -/
def upsertSelected (selected : List Dict) (info : Dict) : List Dict :=
  let url := itemKeyUrl info
  if !url.truthy then selected
  else
    match selected.findIdx? (fun it => itemKeyUrl it = url) with
    | some i => selected.set i (dmerge (selected.getD i []) info)
    | none => selected ++ [info]

/-! ## String utilities

Python string operations are embedded over `List Char` (via `String.data`)
so that all definitions evaluate inside the kernel. -/

/-- `String.mk` shorthand. -/
def ofChars (l : List Char) : String := String.mk l

/-- Drop from the right while the predicate holds (`str.rstrip(c)`). -/
def dropRightWhileL (p : Char → Bool) (l : List Char) : List Char :=
  (l.reverse.dropWhile p).reverse

/-- Whether `pre` is an initial segment of `l`. -/
def leadsWith (pre l : List Char) : Bool :=
  l.take pre.length = pre

/-- Digits of a nonnegative integer literal. -/
def parseDigits (l : List Char) : Option Nat :=
  if l.isEmpty || ¬ l.all Char.isDigit then none
  else some (l.foldl (fun acc c => acc * 10 + (c.toNat - 48)) 0)

/-- Python `int(s)` on an optionally signed decimal literal (whitespace and
underscore forms are not modelled; the qualities the UI passes are plain). -/
def parseIntL (l : List Char) : Option Int :=
  match l with
  | '-' :: rest => (parseDigits rest).map fun n => -(n : Int)
  | '+' :: rest => (parseDigits rest).map fun n => (n : Int)
  | _ => (parseDigits l).map fun n => (n : Int)

/-- Python `str.lower()` (ASCII). -/
def pyLower (s : String) : String := ofChars (s.data.map Char.toLower)

/-- Split on a separator character; always returns at least one group, as
Python `str.split(sep)`. -/
def splitOnCharL (sep : Char) : List Char → List (List Char)
  | [] => [[]]
  | c :: rest =>
    let r := splitOnCharL sep rest
    if c = sep then [] :: r
    else
      match r with
      | g :: gs => (c :: g) :: gs
      | [] => [[c]]

/-! ## Format-selector construction (`build_ydl_opts`) -/

/-- `_parse_height` in `build_ydl_opts`: `int(qv.rstrip("p"))`, `None` on
failure. -/
def parseHeightQ (qv : String) : Option Int :=
  parseIntL (dropRightWhileL (fun c => c = 'p') qv.data)

/-- `_parse_abr` in `build_ydl_opts`: `int(qa.rstrip("k"))`, `None` on
failure. -/
def parseAbrQ (qa : String) : Option Int :=
  parseIntL (dropRightWhileL (fun c => c = 'k') qa.data)

/-- The fields of the options dict built by `build_ydl_opts` that depend on
the requested kind/format/quality. -/
structure YdlOpts where
  format : String
  mergeOutputFormat : Option String
  extractAudioCodec : Option String
deriving DecidableEq, Repr

/-- `build_ydl_opts(base_dir, kind, fmt, ..., quality)`: the format selector,
merge format and audio postprocessor derived from kind, container format and
quality. -/
def buildYdlOpts (kind fmt : String) (quality : Option String) : YdlOpts :=
  let q := pyLower (match quality with
    | some s => if s ≠ "" then s else "best"
    | none => "best")
  if kind = "audio" then
    let fsel := if q ≠ "best" then
        let abr := (parseAbrQ q).getD 0
        "bestaudio[abr>=" ++ toString abr ++ "]/bestaudio/best"
      else "bestaudio/best"
    ⟨fsel, none, some fmt⟩
  else
    let height : Option Int := if q ≠ "best" then parseHeightQ q else none
    let heightT : Option Int := match height with
      | some h => if h = 0 then none else some h
      | none => none
    let fsel := if pyLower fmt = "mp4" then
        match heightT with
        | some h =>
          "bestvideo[height<=" ++ toString h ++ "][ext=mp4]+bestaudio[ext=m4a]/best[height<="
            ++ toString h ++ "][ext=mp4]/best[ext=mp4]/best"
        | none => "bestvideo[ext=mp4]+bestaudio[ext=m4a]/best[ext=mp4]/best"
      else
        match heightT with
        | some h =>
          "bestvideo[height<=" ++ toString h ++ "]+bestaudio/best[height<="
            ++ toString h ++ "]/best"
        | none => "bestvideo+bestaudio/best"
    ⟨fsel, some fmt, none⟩

/-! ## Format-selector semantics

Modelled from the spec: the format-selection mini-language of the external
download collaborator (spec sections 4.3 and 6, which this repository treats
as an opaque dependency).  Alternatives separated by `/` are tried left to
right and the first one matched by some available format wins; `bestaudio`
picks the audio-only format with the greatest bitrate, `bestvideo` the
video-only format with the greatest height, `best` the best complete
(video+audio) format; bracketed constraints filter the candidates; `a+b`
requires both components. -/

/-- One addressable media format, with the minimal fields of the
collaborator schema (spec section 6): codec classes, quality metrics and
container. -/
structure MediaFormat where
  vcodec : String
  acodec : String
  height : Int
  abr : Int
  ext : String
deriving DecidableEq, Repr

/-- Audio-only format (no video codec). -/
def isAudioOnly (f : MediaFormat) : Bool := f.acodec ≠ "none" && f.vcodec = "none"

/-- Video-only format (no audio codec). -/
def isVideoOnly (f : MediaFormat) : Bool := f.vcodec ≠ "none" && f.acodec = "none"

/-- Complete format carrying both video and audio. -/
def isComplete (f : MediaFormat) : Bool := f.vcodec ≠ "none" && f.acodec ≠ "none"

/-- The candidate with the greatest metric among those satisfying `p`. -/
def pickBest (metric : MediaFormat → Int) (p : MediaFormat → Bool) :
    List MediaFormat → Option MediaFormat
  | [] => none
  | f :: rest =>
    match pickBest metric p rest with
    | none => if p f then some f else none
    | some g => if p f && metric g < metric f then some f else some g

/-- Bracketed constraint groups of a selector atom (the substrings between
`[` and `]`). -/
def bracketGroupsAux : List Char → Bool → List Char → List (List Char)
  | [], _, _ => []
  | c :: rest, inside, acc =>
    if inside then
      if c = ']' then acc.reverse :: bracketGroupsAux rest false []
      else bracketGroupsAux rest true (c :: acc)
    else
      if c = '[' then bracketGroupsAux rest true []
      else bracketGroupsAux rest false acc

/-- Bracketed constraint groups of a selector atom. -/
def bracketGroups (l : List Char) : List (List Char) :=
  bracketGroupsAux l false []

/-- Meaning of one bracketed constraint. -/
def filterHolds (flt : List Char) (f : MediaFormat) : Bool :=
  if leadsWith "abr>=".data flt then f.abr ≥ (parseIntL (flt.drop 5)).getD 0
  else if leadsWith "height<=".data flt then f.height ≤ (parseIntL (flt.drop 8)).getD 0
  else if leadsWith "ext=".data flt then f.ext = ofChars (flt.drop 4)
  else false

/-- Evaluate one selector atom (base plus bracketed constraints) against the
available formats. -/
def evalAtom (atom : List Char) (fs : List MediaFormat) : Option MediaFormat :=
  let base := atom.takeWhile (fun c => c ≠ '[')
  let filts := bracketGroups atom
  let constrained := fun (cls : MediaFormat → Bool) (f : MediaFormat) =>
    cls f && filts.all (fun flt => filterHolds flt f)
  if base = "bestaudio".data then pickBest (fun f => f.abr) (constrained isAudioOnly) fs
  else if base = "bestvideo".data then pickBest (fun f => f.height) (constrained isVideoOnly) fs
  else if base = "best".data then pickBest (fun f => f.height) (constrained isComplete) fs
  else none

/-- What one selector alternative resolves to. -/
inductive SelChoice where
  | single (f : MediaFormat)
  | pair (v a : MediaFormat)
deriving DecidableEq, Repr

/-- Evaluate one alternative (`a` or `a+b`). -/
def evalAlt (alt : List Char) (fs : List MediaFormat) : Option SelChoice :=
  match splitOnCharL '+' alt with
  | [only] => (evalAtom only fs).map .single
  | [v, a] =>
    match evalAtom v fs, evalAtom a fs with
    | some fv, some fa => some (.pair fv fa)
    | _, _ => none
  | _ => none

/-- First defined value in a list of options. -/
def firstSome : List (Option α) → Option α
  | [] => none
  | some x :: _ => some x
  | none :: rest => firstSome rest

/-- Evaluate a full selector: alternatives separated by `/`, tried in
order. -/
def evalSelector (sel : String) (fs : List MediaFormat) : Option SelChoice :=
  firstSome ((splitOnCharL '/' sel.data).map fun alt => evalAlt alt fs)

/-! ## Downloader event model and progress hook -/

/-- Signals emitted by `Downloader` (`itemProgress`, `itemStatus`,
`itemThumb`, `finished_all`). -/
inductive Ev where
  | progress (idx : Nat) (pct : ℚ) (speed : ℚ) (eta : Option Int)
  | status (idx : Nat) (msg : String)
  | thumb (idx : Nat)
  | finishedAll
deriving DecidableEq, Repr

/-- One progress-callback payload from the download collaborator, with the
keys the hook in `Downloader._hook_builder` reads (spec section 6 schema;
absent keys are `none`). -/
structure HookDict where
  status : String
  total_bytes : Option Int := none
  total_bytes_estimated : Option Int := none
  downloaded_bytes : Option Int := none
  speed : Option ℚ := none
  eta : Option Int := none
deriving DecidableEq, Repr

/-- Python `a or b` for an optional integer (`None` and `0` are falsy). -/
def orIntOpt (a : Option Int) (b : Int) : Int :=
  match a with
  | some x => if x ≠ 0 then x else b
  | none => b

/-- The events the hook built by `Downloader._hook_builder` emits for one
callback, on the non-raising path (pause gate passed, stop flag unset). -/
def hookEmit (idx : Nat) (d : HookDict) : List Ev :=
  if d.status = "downloading" then
    let total := orIntOpt d.total_bytes (orIntOpt d.total_bytes_estimated 0)
    let downloaded := d.downloaded_bytes.getD 0
    let pct : ℚ := if total ≠ 0 then (downloaded : ℚ) / (total : ℚ) * 100 else 0
    let speed : ℚ := d.speed.getD 0
    [.progress idx pct speed d.eta]
  else if d.status = "finished" then [.status idx "Processing..."]
  else []

/-! ## Downloader state machine

`Downloader.run` with its metadata fetchers is modelled as a small-step
machine.  Metadata completion callbacks run on fetcher threads in the
source and mutate shared state directly, so they interleave with loop
iterations; the model interleaves them at loop-iteration granularity.
Blocking on the pause gate inside the hook only delays callbacks and is
invisible in the event trace. -/

/-- `Downloader._needs_metadata`. -/
def needsMetadata (it : Dict) : Bool :=
  if it.isEmpty then true
  else if !(dget it "url").truthy && !(dget it "webpage_url").truthy then false
  else
    let hasCore := (dget it "id").truthy || (dget it "duration").truthy
      || (dget it "extractor").truthy
    let hasThumb := (dget it "thumbnail").truthy || (dget it "thumbnails").truthy
    !(hasCore && hasThumb)

/-- Thumbnail url consulted by the prefetch pass at the top of
`Downloader.run`:
`(it.get("thumbnail") or it.get("thumbnails", [{}])[-1].get("url")) if it
else None`.  (On a present-but-empty thumbnail list the source would raise
an IndexError; no claim exercises that path and the model returns `none`.) -/
def prefetchThumbUrl (it : Dict) : Option String :=
  if it.isEmpty then none
  else
    let t := dget it "thumbnail"
    if t.truthy then
      match t with
      | .vstr s => some s
      | _ => none
    else
      match dlookup it "thumbnails" with
      | some (.vthumbs xs) =>
        match xs.getLast? with
        | some (some s) => if s = "" then none else some s
        | _ => none
      | _ => none

/-- Thumbnail url consulted by the metadata-completion callback `_ok`:
`self.items[i].get("thumbnail") or (self.items[i].get("thumbnails") or
[{}])[-1].get("url")`. -/
def metaThumbUrl (it : Dict) : Option String :=
  let t := dget it "thumbnail"
  if t.truthy then
    match t with
    | .vstr s => some s
    | _ => none
  else
    match dget it "thumbnails" with
    | .vthumbs xs =>
      match xs.getLast? with
      | some (some s) => if s = "" then none else some s
      | _ => none
    | _ => none

/-- `self.items[i].get("title") or "Untitled"`, rendered into the
metadata-ready status text. -/
def metaReadyTitle (it : Dict) : String :=
  (PV.pyOr (dget it "title") (.vstr "Untitled")).render

/-- Outcome of one `ydl.download([url])` call as decided by the external
collaborator and the control flags: normal return, a raised download error,
or the stop flag raised through the hook (`stop()` called mid-download).
Each carries the progress callbacks delivered before returning/raising. -/
inductive DlOutcome where
  | ok (hooks : List HookDict)
  | fail (msg : String) (hooks : List HookDict)
  | stopSignal (hooks : List HookDict)
deriving DecidableEq, Repr

/-- Environment actions interleaved with the run: one iteration of the
processing loop, completion of a metadata fetcher (with the network result
for the re-emitted thumbnail), and the external control calls. -/
inductive Act where
  | loopStep (dl : DlOutcome)
  | metaOk (idx : Nat) (meta : Dict) (thumbOk : Bool)
  | metaFail (idx : Nat) (err : String)
  | callStop
  | callPause
  | callResume
deriving DecidableEq, Repr

/-- The mutable state of a `Downloader` run: `items`, the processing queue
`order` and `stalled_rounds` of `run`, the `_stop` flag, the pause gate
(`_pause_evt.is_set()`), the in-flight fetcher indices (`_meta_threads`),
the emitted signal trace, the log of download-collaborator invocations,
and whether the loop has terminated (`finished_all` emitted). -/
structure DlState where
  items : List Dict
  order : List Nat
  stalled : Nat
  stop : Bool
  pauseSet : Bool
  meta : List Nat
  events : List Ev
  invoked : List Nat
  finished : Bool
deriving DecidableEq, Repr

/-- `Downloader.pause`: clear the gate and emit a `Paused` status for every
item. -/
def pauseD (s : DlState) : DlState :=
  { s with pauseSet := false,
           events := s.events
             ++ (List.range s.items.length).map fun i => Ev.status i "Paused" }

/-- `Downloader.resume`: set the gate and emit a `Resuming...` status for
every item. -/
def resumeD (s : DlState) : DlState :=
  { s with pauseSet := true,
           events := s.events
             ++ (List.range s.items.length).map fun i => Ev.status i "Resuming..." }

/-- `Downloader.stop`: set the stop flag. -/
def stopD (s : DlState) : DlState := { s with stop := true }

/-- The `_ok` callback of `_start_meta_fetch`: merge the fetched metadata
over the item, re-emit its thumbnail (best-effort network), emit the
metadata-ready status, and deregister the fetcher.  A callback for an index
with no registered fetcher does not occur. -/
def metaOkD (s : DlState) (idx : Nat) (meta : Dict) (thumbOk : Bool) : DlState :=
  if idx ∈ s.meta then
    let merged := dmerge (s.items.getD idx []) meta
    let thumbEvs : List Ev :=
      match metaThumbUrl merged with
      | some _ => if thumbOk then [.thumb idx] else []
      | none => []
    { s with items := s.items.set idx merged,
             meta := s.meta.erase idx,
             events := s.events ++ thumbEvs
               ++ [.status idx ("Metadata ready: " ++ metaReadyTitle merged)] }
  else s

/-- The `_fail` callback of `_start_meta_fetch`: emit the fixed status text
(the fetch error string is ignored by the source) and deregister the
fetcher.  The item itself is left untouched. -/
def metaFailD (s : DlState) (idx : Nat) (_err : String) : DlState :=
  if idx ∈ s.meta then
    { s with meta := s.meta.erase idx,
             events := s.events
               ++ [.status idx "Metadata fetch failed, will try best available"] }
  else s

/-- One iteration of the `while order and not self._stop` loop of
`Downloader.run`, including loop exit: when the guard fails (queue empty or
stop flag set) `finished_all` is emitted once and the run is finished.  A
job still needing metadata is re-queued at the back; otherwise the download
collaborator is invoked and the outcome translated to events. -/
def loopStepD (s : DlState) (dl : DlOutcome) : DlState :=
  if s.finished then s
  else if s.stop then { s with events := s.events ++ [.finishedAll], finished := true }
  else
    match s.order with
    | [] => { s with events := s.events ++ [.finishedAll], finished := true }
    | idx :: rest =>
      let it := s.items.getD idx []
      if !(itemKeyUrl it).truthy then
        { s with order := rest, events := s.events ++ [.status idx "Invalid URL"] }
      else if needsMetadata it then
        let order' := rest ++ [idx]
        let st := s.stalled + 1
        if order'.length + 1 ≤ st then { s with order := order', stalled := 0 }
        else { s with order := order', stalled := st }
      else
        let started := s.events ++ [.status idx "Starting..."]
        match dl with
        | .ok hooks =>
          { s with order := rest, stalled := 0, invoked := s.invoked ++ [idx],
                   events := started ++ hooks.flatMap (hookEmit idx)
                     ++ [.progress idx 100 0 (some 0), .status idx "Done"] }
        | .fail msg hooks =>
          { s with order := rest, stalled := 0, invoked := s.invoked ++ [idx],
                   events := started ++ hooks.flatMap (hookEmit idx)
                     ++ [.status idx ("Error: " ++ msg)] }
        | .stopSignal hooks =>
          { s with order := rest, stalled := 0, invoked := s.invoked ++ [idx],
                   stop := true, finished := true,
                   events := started ++ hooks.flatMap (hookEmit idx)
                     ++ [.status idx "Stopped", .finishedAll] }

/-- One environment step. -/
def step (s : DlState) (a : Act) : DlState :=
  match a with
  | .loopStep dl => loopStepD s dl
  | .metaOk idx meta tb => metaOkD s idx meta tb
  | .metaFail idx err => metaFailD s idx err
  | .callStop => stopD s
  | .callPause => pauseD s
  | .callResume => resumeD s

/-- The state of `Downloader.run` just before the processing loop: the
thumbnail prefetch pass (each fetch best-effort, `thumbOk` telling whether
the network call succeeded), the fetcher-start pass for items missing
metadata, and the queue built ready-items-first. -/
def initState (items : List Dict) (thumbOk : List Bool) : DlState :=
  let thumbEvs := (List.range items.length).filterMap fun i =>
    match prefetchThumbUrl (items.getD i []) with
    | some _ => if thumbOk.getD i false then some (Ev.thumb i) else none
    | none => none
  let fetchIdx := (List.range items.length).filter fun i =>
    needsMetadata (items.getD i []) && (itemKeyUrl (items.getD i [])).truthy
  let fetchEvs := fetchIdx.map fun i => Ev.status i "Fetching metadata..."
  let ready := (List.range items.length).filter fun i => !needsMetadata (items.getD i [])
  let waiting := (List.range items.length).filter fun i => needsMetadata (items.getD i [])
  { items := items, order := ready ++ waiting, stalled := 0, stop := false,
    pauseSet := true, meta := fetchIdx, events := thumbEvs ++ fetchEvs,
    invoked := [], finished := false }

/-- A whole run: the initial passes followed by the scheduled interleaving
of loop iterations, metadata completions and control calls. -/
def runD (items : List Dict) (thumbOk : List Bool) (acts : List Act) : DlState :=
  acts.foldl step (initState items thumbOk)

/-! ## URL classification (`Step1LinkWidget._classify_url` / `_handle_url`)

The Python `urllib.parse` helpers used by the classifier are embedded
following the CPython algorithms (`urlsplit`/`urlparse`, `parse_qs`,
`urlencode` with `doseq=True`, `urlunparse`); percent/plus quoting is not
modelled (no claim input uses it).  `urlparse` raising (mismatched IPv6
brackets in the authority) is modelled by `Option`. -/

/-- Split at the first occurrence of `sep`: the part before, and the rest
after it (`none` when absent). -/
def splitFirstL (sep : Char) : List Char → List Char × Option (List Char)
  | [] => ([], none)
  | c :: rest =>
    if c = sep then ([], some rest)
    else
      let (b, a) := splitFirstL sep rest
      (c :: b, a)

/-- Characters allowed in a URL scheme after the leading letter. -/
def schemeChar (c : Char) : Bool :=
  c.isAlpha || c.isDigit || c = '+' || c = '-' || c = '.'

/-- Split off the scheme, as CPython `urlsplit`: the part before the first
`:` when it is a wellformed scheme, lowercased. -/
def splitScheme (l : List Char) : String × List Char :=
  match splitFirstL ':' l with
  | (before, some rest) =>
    if (¬ before.isEmpty) && (before.headD 'a').isAlpha && before.all schemeChar then
      (ofChars (before.map Char.toLower), rest)
    else ("", l)
  | (_, none) => ("", l)

/-- Split off the network location when the rest starts with `//`; `none`
models the `ValueError` CPython raises on mismatched square brackets. -/
def splitNetloc (l : List Char) : Option (String × List Char) :=
  match l with
  | '/' :: '/' :: rest =>
    let nl := rest.takeWhile fun c => c ≠ '/' && c ≠ '?' && c ≠ '#'
    if (nl.contains '[') != (nl.contains ']') then none
    else some (ofChars nl, rest.drop nl.length)
  | _ => some ("", l)

/-- Split `;params` off the last path segment, as CPython `urlparse`. -/
def splitParams (l : List Char) : List Char × List Char :=
  let segs := splitOnCharL '/' l
  let lastSeg := segs.getLastD []
  match splitFirstL ';' lastSeg with
  | (_, none) => (l, [])
  | (b, some ps) => (List.intercalate ['/'] (segs.dropLast ++ [b]), ps)

/-- The six components of `urllib.parse.urlparse`. -/
structure UrlParts where
  scheme : String
  netloc : String
  path : String
  params : String
  query : String
  fragment : String
deriving DecidableEq, Repr

/-- `urllib.parse.urlparse`; `none` when CPython would raise. -/
def pyUrlparse (url : String) : Option UrlParts :=
  let (scheme, rest) := splitScheme url.data
  match splitNetloc rest with
  | none => none
  | some (netloc, rest2) =>
    let (beforeFrag, frag) := splitFirstL '#' rest2
    let (beforeQ, query) := splitFirstL '?' beforeFrag
    let (path, params) := splitParams beforeQ
    some ⟨scheme, netloc, ofChars path, ofChars params,
          ofChars (query.getD []), ofChars (frag.getD [])⟩

/-- `urllib.parse.parse_qsl` with default flags: pairs without `=` or with
a blank value are dropped. -/
def parseQsl (q : List Char) : List (String × String) :=
  (splitOnCharL '&' q).filterMap fun nv =>
    if nv.isEmpty then none
    else
      match splitFirstL '=' nv with
      | (_, none) => none
      | (n, some val) =>
        if val.isEmpty then none else some (ofChars n, ofChars val)

/-- Append one pair into the grouped query dict, keeping first-seen key
order. -/
def qsAdd (acc : List (String × List String)) (kv : String × String) :
    List (String × List String) :=
  match acc with
  | [] => [(kv.1, [kv.2])]
  | (k, vs) :: rest =>
    if k = kv.1 then (k, vs ++ [kv.2]) :: rest else (k, vs) :: qsAdd rest kv

/-- `urllib.parse.parse_qs`: values grouped per key. -/
def parseQs (q : List Char) : List (String × List String) :=
  (parseQsl q).foldl qsAdd []

/-- Lookup in a grouped query dict (`k in q` / `q.get(k)`). -/
def qsGet (qs : List (String × List String)) (k : String) : Option (List String) :=
  match qs with
  | [] => none
  | (k', vs) :: rest => if k' = k then some vs else qsGet rest k

/-- `(q.get(k) or [dflt])[0]` resp. `q.get(k, [dflt])[0]`. -/
def qsFirst (qs : List (String × List String)) (k dflt : String) : String :=
  match qsGet qs k with
  | some (v :: _) => v
  | some [] => dflt
  | none => dflt

/-- `urllib.parse.urlencode(..., doseq=True)` over grouped values (quoting
not modelled). -/
def urlencodeD (ps : List (String × List String)) : String :=
  String.intercalate "&" (ps.flatMap fun p => p.2.map fun v => p.1 ++ "=" ++ v)

/-- `urllib.parse.urlunparse`. -/
def pyUrlunparse (scheme netloc path params query fragment : String) : String :=
  let url1 := if params ≠ "" then path ++ ";" ++ params else path
  let url2 :=
    if netloc ≠ "" ∨ (url1 ≠ "" ∧ leadsWith "//".data url1.data) then
      if url1 ≠ "" ∧ ¬ leadsWith "/".data url1.data then "//" ++ netloc ++ "/" ++ url1
      else "//" ++ netloc ++ url1
    else url1
  let url3 := if scheme ≠ "" then scheme ++ ":" ++ url2 else url2
  let url4 := if query ≠ "" then url3 ++ "?" ++ query else url3
  if fragment ≠ "" then url4 ++ "#" ++ fragment else url4

/-- The recognized YouTube hosts (`VIDEO_HOSTS`). -/
def VIDEO_HOSTS : List String :=
  ["www.youtube.com", "m.youtube.com", "youtube.com", "youtu.be"]

/-- `u.path.strip("/")`. -/
def stripSlashes (s : String) : String :=
  ofChars (dropRightWhileL (fun c => c = '/') (s.data.dropWhile fun c => c = '/'))

/-- `u.path.split("/")[-1]`. -/
def lastSegment (s : String) : String :=
  ofChars ((splitOnCharL '/' s.data).getLastD [])

/-- `Step1LinkWidget._classify_url`: returns
`(kind, normalized_url)` with kind one of `single`, `playlist`, `radio`,
`unknown`. -/
def classifyUrl (url : String) : String × String :=
  match pyUrlparse url with
  | none => ("unknown", url)
  | some u =>
    if ¬ VIDEO_HOSTS.contains u.netloc then ("unknown", url)
    else if u.netloc = "youtu.be" then
      let vid := stripSlashes u.path
      let q := parseQs u.query.data
      let lst := qsFirst q "list" ""
      if leadsWith "RD".data lst.data || qsFirst q "start_radio" "0" = "1" then
        ("radio", url)
      else if lst ≠ "" then
        ("playlist", pyUrlunparse "https" "www.youtube.com" "/watch" ""
          (urlencodeD [("v", [vid]), ("list", [lst])]) "")
      else
        ("single", pyUrlunparse "https" "www.youtube.com" "/watch" ""
          (urlencodeD [("v", [vid])]) "")
    else if leadsWith "/shorts/".data u.path.data then
      let vid := lastSegment u.path
      ("single", pyUrlunparse (if u.scheme ≠ "" then u.scheme else "https")
        "www.youtube.com" "/watch" "" (urlencodeD [("v", [vid])]) "")
    else if u.path = "/watch" then
      let q := parseQs u.query.data
      let lst := qsFirst q "list" ""
      if lst ≠ "" then
        if leadsWith "RD".data lst.data || qsFirst q "start_radio" "0" = "1" then
          ("radio", url)
        else
          let keep := (match qsGet q "v" with
            | some vs => [("v", vs)]
            | none => []) ++ [("list", [lst])]
          ("playlist", pyUrlunparse u.scheme u.netloc u.path u.params
            (urlencodeD keep) u.fragment)
      else
        let keep := (match qsGet q "v" with
          | some vs => [("v", vs)]
          | none => []) ++ (match qsGet q "t" with
          | some vs => [("t", vs)]
          | none => [])
        ("single", pyUrlunparse u.scheme u.netloc u.path u.params
          (urlencodeD keep) u.fragment)
    else ("unknown", url)

/-- What `Step1LinkWidget._handle_url` does with a classified URL. -/
inductive UrlAction where
  | showError (msg : String)
  | fetchAsPlaylist (url : String)
  | fetch (url : String)
deriving DecidableEq, Repr

/-- `Step1LinkWidget._handle_url`: a radio URL only sets the status label
and returns; a playlist enables multi-select and starts a fetch; anything
else starts a fetch. -/
def handleUrl (kind norm : String) : UrlAction :=
  if kind = "radio" then .showError "Radio playlists are not supported."
  else if kind = "playlist" then .fetchAsPlaylist norm
  else .fetch norm

/-- Whether a handling action invokes the external extraction collaborator
(`_start_fetch`). -/
def invokesFetcher : UrlAction → Bool
  | .showError _ => false
  | .fetchAsPlaylist _ => true
  | .fetch _ => true

/-! ## Concrete run scenarios -/

/-- Events of one successful download that delivers no progress callbacks:
the starting status, the synthetic 100 percent progress, and the done
status. -/
def okItemEvents (i : Nat) : List Ev :=
  [.status i "Starting...", .progress i 100 0 (some 0), .status i "Done"]

/-- A just-submitted placeholder item carrying only its url. -/
def jPlain (u : String) : Dict := [("url", PV.vstr u)]

/-- A metadata-resolved item (id and thumbnail present, so
`_needs_metadata` is false). -/
def jResolved (u i t : String) : Dict :=
  [("url", PV.vstr u), ("id", PV.vstr i), ("thumbnail", PV.vstr t)]

/-- A metadata record as returned by a successful fetch. -/
def metaRecord (i t ttl : String) : Dict :=
  [("id", PV.vstr i), ("thumbnail", PV.vstr t), ("title", PV.vstr ttl)]

/-- The state of the metadata-failure scenario (job 0 a placeholder whose
fetch failed, job 1 resolved and already downloaded), parametrized by the
stalled-rounds counter: job 0 sits in the queue with no fetcher left. -/
def c2state (st : Nat) : DlState :=
  { items := [jPlain "u0", jResolved "u1" "i1" "t1"],
    order := [0], stalled := st, stop := false, pauseSet := true, meta := [],
    events := [.status 0 "Fetching metadata...", .status 1 "Starting...",
               .progress 1 100 0 (some 0), .status 1 "Done",
               .status 0 "Metadata fetch failed, will try best available"],
    invoked := [1], finished := false }

/-- Event filter for the stop scenario: any status for a job other than
job 0 (the one stopped mid-download) may only be a pause/resume
notification — never `Stopped`, `Starting...`, `Done` or an error. -/
def c3good : Ev → Bool
  | .status j m => j == 0 || (m == "Paused" || m == "Resuming...")
  | _ => true

/-- The state of the stop scenario right after job 0 was stopped
mid-download: jobs 1 and 2 still queued, the run finished. -/
def c3stopped : DlState :=
  { items := [jResolved "u0" "i0" "t0", jResolved "u1" "i1" "t1", jResolved "u2" "i2" "t2"],
    order := [1, 2], stalled := 0, stop := true, pauseSet := true, meta := [],
    events := [.status 0 "Starting...", .status 0 "Stopped", .finishedAll],
    invoked := [0], finished := true }

/-! ## Dictionary merge lemmas -/

theorem dlookup_append (xs ys : Dict) (k : String) :
    dlookup (xs ++ ys) k = match dlookup xs k with
      | some v => some v
      | none => dlookup ys k := by
  induction xs with
  | nil => simp [dlookup]
  | cons kv rest ih =>
    obtain ⟨k', v⟩ := kv
    by_cases h : k' = k <;> simp [dlookup, h, ih]

theorem dlookup_mapMerge (a b : Dict) (k : String) :
    dlookup (a.map fun kv => (kv.1, match dlookup b kv.1 with
        | some v => v
        | none => kv.2)) k
      = match dlookup a k with
        | some v => some (match dlookup b k with | some w => w | none => v)
        | none => none := by
  induction a with
  | nil => simp [dlookup]
  | cons kv rest ih =>
    obtain ⟨k', v⟩ := kv
    by_cases h : k' = k <;> simp [dlookup, h, ih]

theorem dlookup_filterNew (a b : Dict) (k : String) :
    dlookup (b.filter fun kv => !dhasKey a kv.1) k
      = if dhasKey a k then none else dlookup b k := by
  induction b with
  | nil => simp [dlookup]
  | cons kv rest ih =>
    obtain ⟨k', v⟩ := kv
    by_cases hk : dhasKey a k' = true
    · by_cases h : k' = k
      · subst h
        simp [dlookup, List.filter, hk, ih]
      · simp [dlookup, List.filter, hk, h, ih]
    · by_cases h : k' = k
      · subst h
        simp [dlookup, List.filter, Bool.not_eq_true', eq_false_of_ne_true hk]
      · simp [dlookup, List.filter, Bool.not_eq_true', eq_false_of_ne_true hk, h, ih]

theorem dlookup_dmerge (a b : Dict) (k : String) :
    dlookup (dmerge a b) k = match dlookup b k with
      | some v => some v
      | none => dlookup a k := by
  unfold dmerge
  rw [dlookup_append, dlookup_mapMerge, dlookup_filterNew]
  unfold dhasKey
  rcases ha : dlookup a k with _ | v <;> rcases hb : dlookup b k with _ | w <;>
    simp [ha, hb]

/-- C5: when record B is merged into existing record A (`{**A, **B}` at the
background metadata completion in `_start_meta_fetch._ok`, and at the
duplicate-submission upsert in `_upsert_selected`), every field present and
non-empty in B overwrites the value from A, every field absent in B leaves
the value from A untouched, and at both call sites the merge direction is
new-record-over-existing (never the reverse): the stored result is
`dmerge existing incoming`. -/
theorem c5_merge_overwrite_contract :
    (∀ (a b : Dict) (k : String) (v : PV), dlookup b k = some v → v.truthy = true →
      dlookup (dmerge a b) k = some v)
  ∧ (∀ (a b : Dict) (k : String), dlookup b k = none →
      dlookup (dmerge a b) k = dlookup a k)
  ∧ (∀ (s : DlState) (idx : Nat) (meta : Dict) (tb : Bool),
      idx ∈ s.meta → idx < s.items.length →
      (metaOkD s idx meta tb).items.getD idx [] = dmerge (s.items.getD idx []) meta)
  ∧ (∀ (selected : List Dict) (info : Dict) (i : Nat),
      (itemKeyUrl info).truthy = true →
      selected.findIdx? (fun it => itemKeyUrl it = itemKeyUrl info) = some i →
      upsertSelected selected info = selected.set i (dmerge (selected.getD i []) info)) := by
  refine ⟨?_, ?_, ?_, ?_⟩
  · intro a b k v hb _
    rw [dlookup_dmerge, hb]
  · intro a b k hb
    rw [dlookup_dmerge, hb]
  · intro s idx meta tb hmem hlt
    simp only [metaOkD, if_pos hmem]
    simp [List.getD_eq_getElem?_getD, List.getElem?_set_eq_of_lt _ hlt]
  · intro selected info i hurl hfind
    unfold upsertSelected
    simp only [hurl, Bool.not_true, Bool.false_eq_true, if_false, hfind]

/-- Witness for `c5_merge_overwrite_contract` at concrete records: a
non-empty incoming `title` overwrites, an absent `duration` is kept, a
metadata completion stores `dmerge old new`, and a duplicate submission
upserts by merging over the existing entry. -/
theorem c5_merge_overwrite_contract_witness :
    dlookup (dmerge [("title", PV.vstr "Old"), ("duration", PV.vint 7)]
        [("title", PV.vstr "New")]) "title" = some (PV.vstr "New")
  ∧ dlookup (dmerge [("title", PV.vstr "Old"), ("duration", PV.vint 7)]
        [("title", PV.vstr "New")]) "duration"
      = dlookup [("title", PV.vstr "Old"), ("duration", PV.vint 7)] "duration"
  ∧ (metaOkD (initState [jPlain "u0"] [false]) 0 (metaRecord "i0" "t0" "A")
        false).items.getD 0 []
      = dmerge ((initState [jPlain "u0"] [false]).items.getD 0 [])
          (metaRecord "i0" "t0" "A")
  ∧ upsertSelected [jResolved "u1" "i1" "t1"] (jPlain "u1")
      = [dmerge (jResolved "u1" "i1" "t1") (jPlain "u1")] := by
  refine ⟨c5_merge_overwrite_contract.1 _ _ _ _ (by decide) (by decide),
          c5_merge_overwrite_contract.2.1 _ _ _ (by decide),
          c5_merge_overwrite_contract.2.2.1 (initState [jPlain "u0"] [false]) 0
            (metaRecord "i0" "t0" "A") false (by decide) (by decide), ?_⟩
  have h := c5_merge_overwrite_contract.2.2.2 [jResolved "u1" "i1" "t1"]
    (jPlain "u1") 0 (by decide) (by decide)
  simpa using h

/-! ## Selector-evaluation lemmas -/

theorem pickBest_mem_sat (m : MediaFormat → Int) (p : MediaFormat → Bool) :
    ∀ (fs : List MediaFormat) (g : MediaFormat), pickBest m p fs = some g →
      g ∈ fs ∧ p g = true := by
  intro fs
  induction fs with
  | nil => intro g h; simp [pickBest] at h
  | cons f rest ih =>
    intro g h
    rcases hr : pickBest m p rest with _ | g'
    · simp only [pickBest, hr] at h
      by_cases hp : p f = true
      · simp [hp] at h
        subst h
        exact ⟨List.mem_cons_self _ _, hp⟩
      · simp [hp] at h
    · simp only [pickBest, hr] at h
      by_cases hc : (p f && decide (m g' < m f)) = true
      · rw [if_pos hc] at h
        rw [Bool.and_eq_true] at hc
        obtain rfl : f = g := Option.some.inj h
        exact ⟨List.mem_cons_self _ _, hc.1⟩
      · rw [if_neg hc] at h
        obtain rfl : g' = g := Option.some.inj h
        obtain ⟨hm, hs⟩ := ih g' hr
        exact ⟨List.mem_cons_of_mem _ hm, hs⟩

theorem pickBest_none_iff (m : MediaFormat → Int) (p : MediaFormat → Bool) :
    ∀ fs : List MediaFormat, pickBest m p fs = none ↔ ∀ f ∈ fs, p f = false := by
  intro fs
  induction fs with
  | nil => simp [pickBest]
  | cons f rest ih =>
    rcases hr : pickBest m p rest with _ | g'
    · have hall := ih.mp hr
      simp only [pickBest, hr]
      by_cases hp : p f = true
      · simp only [hp, if_true]
        constructor
        · intro h; simp at h
        · intro h
          have := h f (List.mem_cons_self _ _)
          rw [hp] at this
          simp at this
      · simp only [Bool.not_eq_true] at hp
        constructor
        · intro _ f' hf'
          rcases List.mem_cons.mp hf' with h1 | h1
          · subst h1; exact hp
          · exact hall f' h1
        · intro _
          simp [hp]
    · simp only [pickBest, hr]
      have hmem := pickBest_mem_sat m p rest g' hr
      constructor
      · intro h
        by_cases hc : (p f && decide (m g' < m f)) = true
        · rw [if_pos hc] at h; simp at h
        · rw [if_neg hc] at h; simp at h
      · intro h
        have := h g' (List.mem_cons_of_mem _ hmem.1)
        rw [hmem.2] at this
        simp at this

theorem pickBest_maximal (m : MediaFormat → Int) (p : MediaFormat → Bool) :
    ∀ (fs : List MediaFormat) (g : MediaFormat), pickBest m p fs = some g →
      ∀ f ∈ fs, p f = true → m f ≤ m g := by
  intro fs
  induction fs with
  | nil => intro g h; simp [pickBest] at h
  | cons f rest ih =>
    intro g h f' hf' hp'
    rcases hr : pickBest m p rest with _ | g'
    · simp only [pickBest, hr] at h
      by_cases hp : p f = true
      · simp [hp] at h
        subst h
        rcases List.mem_cons.mp hf' with h1 | h1
        · subst h1; exact le_refl _
        · rw [(pickBest_none_iff m p rest).mp hr f' h1] at hp'
          simp at hp'
      · simp [hp] at h
    · simp only [pickBest, hr] at h
      by_cases hc : (p f && decide (m g' < m f)) = true
      · rw [if_pos hc] at h
        obtain rfl : f = g := Option.some.inj h
        rw [Bool.and_eq_true] at hc
        have hlt' := of_decide_eq_true hc.2
        rcases List.mem_cons.mp hf' with h1 | h1
        · subst h1; exact le_refl _
        · exact le_of_lt (lt_of_le_of_lt (ih g' hr f' h1 hp') hlt')
      · rw [if_neg hc] at h
        obtain rfl : g' = g := Option.some.inj h
        rcases List.mem_cons.mp hf' with h1 | h1
        · subst h1
          rcases Bool.and_eq_false_iff.mp (Bool.eq_false_iff.mpr hc) with h2 | h2
          · rw [hp'] at h2; simp at h2
          · exact le_of_not_lt (of_decide_eq_false h2)
        · exact ih g' hr f' h1 hp'

theorem pickBest_isSome_of_exists (m : MediaFormat → Int) (p : MediaFormat → Bool)
    (fs : List MediaFormat) (h : ∃ f ∈ fs, p f = true) :
    ∃ g, pickBest m p fs = some g := by
  rcases hr : pickBest m p fs with _ | g
  · obtain ⟨f, hf, hp⟩ := h
    rw [(pickBest_none_iff m p fs).mp hr f hf] at hp
    simp at hp
  · exact ⟨g, rfl⟩

/-- C7: for an audio-kind job the constructed format selector prefers the
best available audio stream; a minimum-bitrate quality such as "192k"
filters the candidates to bitrate at least the requested value (preferring
the best-bitrate one among them), falling back to the unconstrained
best-audio selector when none qualify; quality "best" applies no bitrate
filter. -/
theorem c7_audio_selector (fmt : String) :
    (buildYdlOpts "audio" fmt (some "192k")).format
      = "bestaudio[abr>=192]/bestaudio/best"
  ∧ (buildYdlOpts "audio" fmt (some "best")).format = "bestaudio/best"
  ∧ ∀ fs : List MediaFormat,
      ((∃ f ∈ fs, isAudioOnly f = true ∧ 192 ≤ f.abr) →
        ∃ g, evalSelector ((buildYdlOpts "audio" fmt (some "192k")).format) fs
            = some (.single g)
          ∧ g ∈ fs ∧ isAudioOnly g = true ∧ 192 ≤ g.abr
          ∧ ∀ f ∈ fs, isAudioOnly f = true → 192 ≤ f.abr → f.abr ≤ g.abr)
    ∧ ((∀ f ∈ fs, ¬(isAudioOnly f = true ∧ 192 ≤ f.abr)) →
        evalSelector ((buildYdlOpts "audio" fmt (some "192k")).format) fs
          = evalSelector ((buildYdlOpts "audio" fmt (some "best")).format) fs) := by
  refine ⟨rfl, rfl, fun fs => ⟨?_, ?_⟩⟩
  · intro hex
    have hex' : ∃ f ∈ fs,
        (fun f => isAudioOnly f && (decide ((192:Int) ≤ f.abr) && true)) f = true := by
      obtain ⟨f, hf, h1, h2⟩ := hex
      exact ⟨f, hf, by simp [h1, h2]⟩
    obtain ⟨g, hg⟩ := pickBest_isSome_of_exists (fun f => f.abr) _ fs hex'
    obtain ⟨hmem, hsat⟩ := pickBest_mem_sat _ _ fs g hg
    have hmax := pickBest_maximal _ _ fs g hg
    simp only [Bool.and_eq_true, decide_eq_true_eq, and_true] at hsat
    refine ⟨g, ?_, hmem, hsat.1, hsat.2, fun f hf h1 h2 => ?_⟩
    · have hred : evalSelector ((buildYdlOpts "audio" fmt (some "192k")).format) fs
          = firstSome [(pickBest (fun f => f.abr)
                (fun f => isAudioOnly f && (decide ((192:Int) ≤ f.abr) && true)) fs).map
                  .single,
              evalAlt ("bestaudio".data) fs, evalAlt ("best".data) fs] := rfl
      rw [hred, hg]
      rfl
    · exact hmax f hf (by simp [h1, h2])
  · intro hnone
    have hn : pickBest (fun f => f.abr)
        (fun f => isAudioOnly f && (decide ((192:Int) ≤ f.abr) && true)) fs = none := by
      rw [pickBest_none_iff]
      intro f hf
      by_cases h1 : isAudioOnly f = true
      · have h2 : ¬ (192:Int) ≤ f.abr := fun hc => hnone f hf ⟨h1, hc⟩
        simp [h1, h2]
      · simp [Bool.eq_false_iff.mpr h1]
    calc evalSelector ((buildYdlOpts "audio" fmt (some "192k")).format) fs
        = firstSome [(pickBest (fun f => f.abr)
              (fun f => isAudioOnly f && (decide ((192:Int) ≤ f.abr) && true)) fs).map
                .single,
            evalAlt ("bestaudio".data) fs, evalAlt ("best".data) fs] := rfl
      _ = firstSome [evalAlt ("bestaudio".data) fs, evalAlt ("best".data) fs] := by
            rw [hn]
            rfl
      _ = evalSelector ((buildYdlOpts "audio" fmt (some "best")).format) fs := rfl

/-- Witness for `c7_audio_selector`: with a 128k and a 251k audio stream
available, quality "192k" selects the 251k stream; with only a 128k audio
stream, the selector behaves exactly like the unconstrained "best" one. -/
theorem c7_audio_selector_witness :
    evalSelector ((buildYdlOpts "audio" "mp3" (some "192k")).format)
        [⟨"none", "mp4a", 0, 128, "m4a"⟩, ⟨"none", "opus", 0, 251, "webm"⟩]
      = some (.single ⟨"none", "opus", 0, 251, "webm"⟩)
  ∧ evalSelector ((buildYdlOpts "audio" "mp3" (some "192k")).format)
        [⟨"none", "mp4a", 0, 128, "m4a"⟩, ⟨"avc1", "mp4a", 720, 0, "mp4"⟩]
      = evalSelector ((buildYdlOpts "audio" "mp3" (some "best")).format)
        [⟨"none", "mp4a", 0, 128, "m4a"⟩, ⟨"avc1", "mp4a", 720, 0, "mp4"⟩] := by
  constructor
  · obtain ⟨g, hsel, hmem, hao, habr, hmax⟩ :=
      ((c7_audio_selector "mp3").2.2
        [⟨"none", "mp4a", 0, 128, "m4a"⟩, ⟨"none", "opus", 0, 251, "webm"⟩]).1
        (by decide)
    have hg : g = ⟨"none", "opus", 0, 251, "webm"⟩ := by
      rcases List.mem_cons.mp hmem with h | h
      · rw [h] at habr
        exact absurd habr (by decide)
      · exact List.mem_singleton.mp h
    rw [hg] at hsel
    exact hsel
  · exact ((c7_audio_selector "mp3").2.2
      [⟨"none", "mp4a", 0, 128, "m4a"⟩, ⟨"avc1", "mp4a", 720, 0, "mp4"⟩]).2 (by decide)

/-- C6: for a video-kind job with container mp4, the constructed selector
prefers a combined mp4/m4a video+audio pair; a height quality such as
"720p" imposes height at most 720 (preferring the greatest such height);
the fallback chain is constrained-mp4, then any-mp4, then
unconstrained-best; quality "best" applies no height constraint. -/
theorem c6_video_mp4_selector :
    (buildYdlOpts "video" "mp4" (some "720p")).format
      = "bestvideo[height<=720][ext=mp4]+bestaudio[ext=m4a]/best[height<=720][ext=mp4]/best[ext=mp4]/best"
  ∧ (buildYdlOpts "video" "mp4" (some "best")).format
      = "bestvideo[ext=mp4]+bestaudio[ext=m4a]/best[ext=mp4]/best"
  ∧ ∀ fs : List MediaFormat,
      ((∃ v ∈ fs, isVideoOnly v = true ∧ v.height ≤ 720 ∧ v.ext = "mp4") →
       (∃ a ∈ fs, isAudioOnly a = true ∧ a.ext = "m4a") →
        ∃ v a, evalSelector ((buildYdlOpts "video" "mp4" (some "720p")).format) fs
            = some (.pair v a)
          ∧ v ∈ fs ∧ isVideoOnly v = true ∧ v.height ≤ 720 ∧ v.ext = "mp4"
          ∧ (∀ f ∈ fs, isVideoOnly f = true → f.height ≤ 720 → f.ext = "mp4" →
              f.height ≤ v.height)
          ∧ a ∈ fs ∧ isAudioOnly a = true ∧ a.ext = "m4a")
    ∧ ((∀ f ∈ fs, ¬(isAudioOnly f = true ∧ f.ext = "m4a")) →
       (∀ f ∈ fs, ¬(f.height ≤ 720 ∧ f.ext = "mp4")) →
       (∃ f ∈ fs, isComplete f = true ∧ f.ext = "mp4") →
        ∃ g, evalSelector ((buildYdlOpts "video" "mp4" (some "720p")).format) fs
            = some (.single g)
          ∧ g ∈ fs ∧ isComplete g = true ∧ g.ext = "mp4"
          ∧ ∀ f ∈ fs, isComplete f = true → f.ext = "mp4" → f.height ≤ g.height)
    ∧ ((∀ f ∈ fs, ¬(isAudioOnly f = true ∧ f.ext = "m4a")) →
       (∀ f ∈ fs, f.ext ≠ "mp4") →
       (∃ f ∈ fs, isComplete f = true) →
        ∃ g, evalSelector ((buildYdlOpts "video" "mp4" (some "720p")).format) fs
            = some (.single g)
          ∧ g ∈ fs ∧ isComplete g = true
          ∧ ∀ f ∈ fs, isComplete f = true → f.height ≤ g.height) := by
  have hsel : ∀ fs : List MediaFormat,
      evalSelector ((buildYdlOpts "video" "mp4" (some "720p")).format) fs
        = firstSome
            [(match evalAtom ("bestvideo[height<=720][ext=mp4]".data) fs,
                    evalAtom ("bestaudio[ext=m4a]".data) fs with
              | some fv, some fa => some (.pair fv fa)
              | _, _ => none),
             (pickBest (fun f => f.height)
               (fun f => isComplete f &&
                 (decide (f.height ≤ (720:Int)) && (decide (f.ext = "mp4") && true))) fs).map
               .single,
             (pickBest (fun f => f.height)
               (fun f => isComplete f && (decide (f.ext = "mp4") && true))
               fs).map .single,
             (pickBest (fun f => f.height) (fun f => isComplete f && true) fs).map
               .single] := fun fs => rfl
  refine ⟨rfl, rfl, fun fs => ⟨?_, ?_, ?_⟩⟩
  · intro hv ha
    have hv' : ∃ f ∈ fs, (fun f => isVideoOnly f &&
        (decide (f.height ≤ (720:Int)) && (decide (f.ext = "mp4") && true))) f = true := by
      obtain ⟨v, hm, h1, h2, h3⟩ := hv
      exact ⟨v, hm, by simp [h1, h2, h3]⟩
    have ha' : ∃ f ∈ fs, (fun f => isAudioOnly f &&
        (decide (f.ext = "m4a") && true)) f = true := by
      obtain ⟨a, hm, h1, h2⟩ := ha
      exact ⟨a, hm, by simp [h1, h2]⟩
    obtain ⟨v, hgv⟩ := pickBest_isSome_of_exists (fun f => f.height) _ fs hv'
    obtain ⟨a, hga⟩ := pickBest_isSome_of_exists (fun f => f.abr) _ fs ha'
    obtain ⟨hvm, hvs⟩ := pickBest_mem_sat _ _ fs v hgv
    obtain ⟨ham, has⟩ := pickBest_mem_sat _ _ fs a hga
    have hvmax := pickBest_maximal _ _ fs v hgv
    simp only [Bool.and_eq_true, decide_eq_true_eq, and_true] at hvs has
    refine ⟨v, a, ?_, hvm, hvs.1, hvs.2.1, hvs.2.2, ?_, ham, has.1, has.2⟩
    · rw [hsel fs]
      have e1 : evalAtom ("bestvideo[height<=720][ext=mp4]".data) fs = some v := hgv
      have e2 : evalAtom ("bestaudio[ext=m4a]".data) fs = some a := hga
      rw [e1, e2]
      rfl
    · intro f hf h1 h2 h3
      exact hvmax f hf (by simp [h1, h2, h3])
  · intro hnoa hno720 hmp4
    have ea : evalAtom ("bestaudio[ext=m4a]".data) fs = none := by
      show pickBest (fun f => f.abr)
        (fun f => isAudioOnly f && (decide (f.ext = "m4a") && true)) fs = none
      rw [pickBest_none_iff]
      intro f hf
      by_cases h1 : isAudioOnly f = true
      · have h2 : f.ext ≠ "m4a" := fun hc => hnoa f hf ⟨h1, hc⟩
        simp [h1, h2]
      · simp [Bool.eq_false_iff.mpr h1]
    have e2 : pickBest (fun f => f.height)
        (fun f => isComplete f &&
          (decide (f.height ≤ (720:Int)) && (decide (f.ext = "mp4") && true))) fs
        = none := by
      rw [pickBest_none_iff]
      intro f hf
      by_cases h1 : f.height ≤ (720:Int)
      · have h2 : f.ext ≠ "mp4" := fun hc => hno720 f hf ⟨h1, hc⟩
        simp [h2]
      · simp [h1]
    have hex' : ∃ f ∈ fs, (fun f => isComplete f &&
        (decide (f.ext = "mp4") && true)) f = true := by
      obtain ⟨f, hm, h1, h2⟩ := hmp4
      exact ⟨f, hm, by simp [h1, h2]⟩
    obtain ⟨g, hg⟩ := pickBest_isSome_of_exists (fun f => f.height) _ fs hex'
    obtain ⟨hmem, hsat⟩ := pickBest_mem_sat _ _ fs g hg
    have hmax := pickBest_maximal _ _ fs g hg
    simp only [Bool.and_eq_true, decide_eq_true_eq, and_true] at hsat
    refine ⟨g, ?_, hmem, hsat.1, hsat.2, fun f hf h1 h2 => ?_⟩
    · rw [hsel fs, ea, e2, hg]
      cases evalAtom ("bestvideo[height<=720][ext=mp4]".data) fs <;> rfl
    · exact hmax f hf (by simp [h1, h2])
  · intro hnoa hnomp4 hc
    have ea : evalAtom ("bestaudio[ext=m4a]".data) fs = none := by
      show pickBest (fun f => f.abr)
        (fun f => isAudioOnly f && (decide (f.ext = "m4a") && true)) fs = none
      rw [pickBest_none_iff]
      intro f hf
      by_cases h1 : isAudioOnly f = true
      · have h2 : f.ext ≠ "m4a" := fun hcc => hnoa f hf ⟨h1, hcc⟩
        simp [h1, h2]
      · simp [Bool.eq_false_iff.mpr h1]
    have e2 : pickBest (fun f => f.height)
        (fun f => isComplete f &&
          (decide (f.height ≤ (720:Int)) && (decide (f.ext = "mp4") && true))) fs
        = none := by
      rw [pickBest_none_iff]
      intro f hf
      simp [hnomp4 f hf]
    have e3 : pickBest (fun f => f.height)
        (fun f => isComplete f && (decide (f.ext = "mp4") && true)) fs = none := by
      rw [pickBest_none_iff]
      intro f hf
      simp [hnomp4 f hf]
    have hex' : ∃ f ∈ fs, (fun f => isComplete f && true) f = true := by
      obtain ⟨f, hm, h1⟩ := hc
      exact ⟨f, hm, by simp [h1]⟩
    obtain ⟨g, hg⟩ := pickBest_isSome_of_exists (fun f => f.height) _ fs hex'
    obtain ⟨hmem, hsat⟩ := pickBest_mem_sat _ _ fs g hg
    have hmax := pickBest_maximal _ _ fs g hg
    simp only [Bool.and_eq_true, and_true] at hsat
    refine ⟨g, ?_, hmem, hsat, fun f hf h1 => ?_⟩
    · rw [hsel fs, ea, e2, e3, hg]
      cases evalAtom ("bestvideo[height<=720][ext=mp4]".data) fs <;> rfl
    · exact hmax f hf (by simp [h1])

/-- Witness for `c6_video_mp4_selector`: a 720p mp4 video-only stream pairs
with the m4a audio stream; a lone 1080p complete mp4 is picked by the
any-mp4 fallback; a lone complete webm is picked by the final best
fallback. -/
theorem c6_video_mp4_selector_witness :
    evalSelector ((buildYdlOpts "video" "mp4" (some "720p")).format)
        [⟨"avc1", "none", 720, 0, "mp4"⟩, ⟨"none", "mp4a", 0, 128, "m4a"⟩]
      = some (.pair ⟨"avc1", "none", 720, 0, "mp4"⟩ ⟨"none", "mp4a", 0, 128, "m4a"⟩)
  ∧ evalSelector ((buildYdlOpts "video" "mp4" (some "720p")).format)
        [⟨"avc1", "mp4a", 1080, 0, "mp4"⟩]
      = some (.single ⟨"avc1", "mp4a", 1080, 0, "mp4"⟩)
  ∧ evalSelector ((buildYdlOpts "video" "mp4" (some "720p")).format)
        [⟨"vp9", "opus", 1080, 0, "webm"⟩]
      = some (.single ⟨"vp9", "opus", 1080, 0, "webm"⟩) := by
  refine ⟨?_, ?_, ?_⟩
  · obtain ⟨v, a, hsel, hvm, hv1, hv2, hv3, _, ham, ha1, ha2⟩ :=
      (c6_video_mp4_selector.2.2
        [⟨"avc1", "none", 720, 0, "mp4"⟩, ⟨"none", "mp4a", 0, 128, "m4a"⟩]).1
        (by decide) (by decide)
    have hv : v = ⟨"avc1", "none", 720, 0, "mp4"⟩ := by
      rcases List.mem_cons.mp hvm with h | h
      · exact h
      · rw [List.mem_singleton.mp h] at hv1
        exact absurd hv1 (by decide)
    have ha : a = ⟨"none", "mp4a", 0, 128, "m4a"⟩ := by
      rcases List.mem_cons.mp ham with h | h
      · rw [h] at ha1
        exact absurd ha1 (by decide)
      · exact List.mem_singleton.mp h
    rw [hv, ha] at hsel
    exact hsel
  · obtain ⟨g, hsel, hmem, _, _, _⟩ :=
      (c6_video_mp4_selector.2.2 [⟨"avc1", "mp4a", 1080, 0, "mp4"⟩]).2.1
        (by decide) (by decide) (by decide)
    rw [List.mem_singleton.mp hmem] at hsel
    exact hsel
  · obtain ⟨g, hsel, hmem, _, _⟩ :=
      (c6_video_mp4_selector.2.2 [⟨"vp9", "opus", 1080, 0, "webm"⟩]).2.2
        (by decide) (by decide) (by decide)
    rw [List.mem_singleton.mp hmem] at hsel
    exact hsel

/-- C8: for every progress callback with status "downloading", the emitted
percent is downloaded bytes over total bytes times 100 when a (nonzero)
total is known — through either total key the hook reads — and 0 when no
total is known; speed passes through when supplied, defaulting to 0; ETA
passes through when supplied, defaulting to None. -/
theorem c8_progress_translation (idx : Nat) (t n e : Int) (sp : ℚ) :
    (t ≠ 0 → hookEmit idx ⟨"downloading", some t, none, some n, some sp, some e⟩
        = [.progress idx ((n : ℚ) / (t : ℚ) * 100) sp (some e)])
  ∧ (t ≠ 0 → hookEmit idx ⟨"downloading", none, some t, some n, some sp, some e⟩
        = [.progress idx ((n : ℚ) / (t : ℚ) * 100) sp (some e)])
  ∧ hookEmit idx ⟨"downloading", none, none, some n, none, none⟩
      = [.progress idx 0 0 none] := by
  refine ⟨?_, ?_, ?_⟩
  · intro ht
    simp [hookEmit, orIntOpt, ht]
  · intro ht
    simp [hookEmit, orIntOpt, ht]
  · simp [hookEmit, orIntOpt]

/-- Witness for `c8_progress_translation`: 50 of 200 bytes at speed 5 with
eta 12 yields 25 percent, and a callback with no totals yields 0 percent,
0 speed and no eta. -/
theorem c8_progress_translation_witness :
    hookEmit 3 ⟨"downloading", some 200, none, some 50, some 5, some 12⟩
      = [.progress 3 25 5 (some 12)]
  ∧ hookEmit 3 ⟨"downloading", none, none, some 50, none, none⟩
      = [.progress 3 0 0 none] := by
  constructor
  · rw [(c8_progress_translation 3 200 50 12 5).1 (by decide)]
    norm_num
  · exact (c8_progress_translation 3 200 50 12 5).2.2

/-! ## Orchestrator run lemmas -/

theorem runQueue_ok (ord : List Nat) : ∀ s : DlState,
    s.finished = false → s.stop = false → s.order = ord →
    (∀ i ∈ ord, needsMetadata (s.items.getD i []) = false
      ∧ (itemKeyUrl (s.items.getD i [])).truthy = true) →
    ((List.replicate ord.length (Act.loopStep (.ok []))).foldl step s).items = s.items
    ∧ ((List.replicate ord.length (Act.loopStep (.ok []))).foldl step s).order = []
    ∧ ((List.replicate ord.length (Act.loopStep (.ok []))).foldl step s).stop = false
    ∧ ((List.replicate ord.length (Act.loopStep (.ok []))).foldl step s).finished = false
    ∧ ((List.replicate ord.length (Act.loopStep (.ok []))).foldl step s).meta = s.meta
    ∧ ((List.replicate ord.length (Act.loopStep (.ok []))).foldl step s).invoked
        = s.invoked ++ ord
    ∧ ((List.replicate ord.length (Act.loopStep (.ok []))).foldl step s).events
        = s.events ++ ord.flatMap okItemEvents := by
  induction ord with
  | nil =>
    intro s h1 h2 h3 _
    simp [h3, h1, h2]
  | cons i rest ih =>
    intro s h1 h2 h3 h4
    obtain ⟨hnm, hurl⟩ := h4 i (List.mem_cons_self _ _)
    simp only [List.getD_eq_getElem?_getD] at hnm hurl
    have hstep : step s (Act.loopStep (.ok []))
        = { s with order := rest, stalled := 0, invoked := s.invoked ++ [i],
                   events := s.events ++ okItemEvents i } := by
      simp [step, loopStepD, h1, h2, h3, hnm, hurl, okItemEvents]
    rw [List.length_cons, List.replicate_succ, List.foldl_cons, hstep]
    have hres := ih ({ s with order := rest, stalled := 0, invoked := s.invoked ++ [i], events := s.events ++ okItemEvents i }) h1 h2 rfl (fun j hj => h4 j (List.mem_cons_of_mem _ hj))
    simp only at hres
    obtain ⟨r1, r2, r3, r4, r5, r6, r7⟩ := hres
    refine ⟨r1, r2, r3, r4, r5, ?_, ?_⟩
    · rw [r6]
      simp
    · rw [r7]
      simp [okItemEvents]

/-- C1 (amended): downloads are strictly sequential, and when every job is
already metadata-resolved at start the downloads and their finishing events
occur exactly in submission order; but when jobs need metadata resolution,
the queue is processed availability-first (a still-unresolved job is
re-queued at the back), so a later-submitted job whose metadata resolves
earlier is downloaded first — see the counterexample. -/
theorem c1_submission_order_when_all_ready (items : List Dict) (thumbOk : List Bool)
    (h : ∀ it ∈ items, needsMetadata it = false ∧ (itemKeyUrl it).truthy = true) :
    ((runD items thumbOk (List.replicate items.length (Act.loopStep (.ok []))
        ++ [Act.loopStep (.ok [])])).invoked = List.range items.length)
  ∧ ((runD items thumbOk (List.replicate items.length (Act.loopStep (.ok []))
        ++ [Act.loopStep (.ok [])])).events
      = (initState items thumbOk).events
        ++ (List.range items.length).flatMap okItemEvents ++ [Ev.finishedAll])
  ∧ ((runD items thumbOk (List.replicate items.length (Act.loopStep (.ok []))
        ++ [Act.loopStep (.ok [])])).finished = true) := by
  have hgetD : ∀ i ∈ List.range items.length,
      needsMetadata (items.getD i []) = false
        ∧ (itemKeyUrl (items.getD i [])).truthy = true := by
    intro i hi
    have hlt := List.mem_range.mp hi
    have hmem : items.getD i [] ∈ items := by
      rw [List.getD_eq_getElem?_getD, List.getElem?_eq_getElem hlt]
      exact List.getElem_mem _
    exact h _ hmem
  have horder : (initState items thumbOk).order = List.range items.length := by
    simp only [initState]
    rw [List.filter_eq_self.mpr, List.filter_eq_nil_iff.mpr, List.append_nil]
    · intro i hi
      have hn := (hgetD i hi).1
      simp only [List.getD_eq_getElem?_getD] at hn
      simp [hn]
    · intro i hi
      have hn := (hgetD i hi).1
      simp only [List.getD_eq_getElem?_getD] at hn
      simp [hn]
  obtain ⟨r1, r2, r3, r4, r5, r6, r7⟩ := runQueue_ok (List.range items.length)
    (initState items thumbOk) rfl rfl horder hgetD
  simp only [List.length_range] at r1 r2 r3 r4 r5 r6 r7
  have hrun2 : runD items thumbOk (List.replicate items.length
        (Act.loopStep (.ok [])) ++ [Act.loopStep (.ok [])])
      = step ((List.replicate items.length (Act.loopStep (DlOutcome.ok []))).foldl
          step (initState items thumbOk)) (Act.loopStep (.ok [])) := by
    rw [runD, List.foldl_append, List.foldl_cons, List.foldl_nil]
  have hfin1 : (step ((List.replicate items.length (Act.loopStep (DlOutcome.ok []))).foldl
          step (initState items thumbOk)) (Act.loopStep (.ok []))).invoked
      = ((List.replicate items.length (Act.loopStep (DlOutcome.ok []))).foldl
          step (initState items thumbOk)).invoked := by
    simp [step, loopStepD, r4, r3, r2]
  have hfin2 : (step ((List.replicate items.length (Act.loopStep (DlOutcome.ok []))).foldl
          step (initState items thumbOk)) (Act.loopStep (.ok []))).events
      = ((List.replicate items.length (Act.loopStep (DlOutcome.ok []))).foldl
          step (initState items thumbOk)).events ++ [Ev.finishedAll] := by
    simp [step, loopStepD, r4, r3, r2]
  have hfin3 : (step ((List.replicate items.length (Act.loopStep (DlOutcome.ok []))).foldl
          step (initState items thumbOk)) (Act.loopStep (.ok []))).finished = true := by
    simp [step, loopStepD, r4, r3, r2]
  refine ⟨?_, ?_, ?_⟩
  · rw [hrun2, hfin1, r6]
    simp [initState]
  · rw [hrun2, hfin2, r7]
  · rw [hrun2, hfin3]

/-- Witness for `c1_submission_order_when_all_ready`: two resolved jobs are
downloaded in submission order 0 then 1, and the run finishes. -/
theorem c1_submission_order_witness :
    ((runD [jResolved "u0" "i0" "t0", jResolved "u1" "i1" "t1"] [false, false]
        (List.replicate 2 (Act.loopStep (.ok [])) ++ [Act.loopStep (.ok [])])).invoked
      = List.range 2)
  ∧ ((runD [jResolved "u0" "i0" "t0", jResolved "u1" "i1" "t1"] [false, false]
        (List.replicate 2 (Act.loopStep (.ok [])) ++ [Act.loopStep (.ok [])])).finished
      = true) := by
  have h := c1_submission_order_when_all_ready
    [jResolved "u0" "i0" "t0", jResolved "u1" "i1" "t1"] [false, false] (by decide)
  exact ⟨h.1, h.2.2⟩

/-- C1 counterexample: two jobs both needing metadata are submitted in the
order 0, 1; job 1 resolves first and is downloaded and finished before
job 0, although both jobs complete successfully — refuting that downloads
always follow submission order. -/
theorem c1_counterexample :
    ((runD [jPlain "u0", jPlain "u1"] [false, false]
        [Act.metaOk 1 (metaRecord "i1" "t1" "B") false, Act.loopStep (.ok []),
         Act.loopStep (.ok []), Act.metaOk 0 (metaRecord "i0" "t0" "A") false,
         Act.loopStep (.ok []), Act.loopStep (.ok [])]).invoked = [1, 0])
  ∧ ((runD [jPlain "u0", jPlain "u1"] [false, false]
        [Act.metaOk 1 (metaRecord "i1" "t1" "B") false, Act.loopStep (.ok []),
         Act.loopStep (.ok []), Act.metaOk 0 (metaRecord "i0" "t0" "A") false,
         Act.loopStep (.ok []), Act.loopStep (.ok [])]).events
      = [Ev.status 0 "Fetching metadata...", Ev.status 1 "Fetching metadata...",
         Ev.status 1 "Metadata ready: B", Ev.status 1 "Starting...",
         Ev.progress 1 100 0 (some 0), Ev.status 1 "Done",
         Ev.status 0 "Metadata ready: A", Ev.status 0 "Starting...",
         Ev.progress 0 100 0 (some 0), Ev.status 0 "Done", Ev.finishedAll]) := by
  constructor <;> decide

/-- C2 (code bug in the source): in a run with job 0 unresolved and job 1
resolved, when the metadata fetch of job 0 fails the `_fail` callback only
emits the fixed status "Metadata fetch failed, will try best available" —
the job is never marked failed, never downloaded, and is re-queued forever,
so however many further loop iterations run, the event trace never grows,
`finished_all` is never emitted and the run never finishes, while job 1 did
complete. -/
theorem c2_metadata_failure_stalls_run (k : Nat) :
    ((runD [jPlain "u0", jResolved "u1" "i1" "t1"] [false, false]
        ([Act.loopStep (.ok []), Act.metaFail 0 "boom"]
          ++ List.replicate k (Act.loopStep (.ok [])))).events = (c2state 0).events)
  ∧ Ev.finishedAll ∉ (runD [jPlain "u0", jResolved "u1" "i1" "t1"] [false, false]
        ([Act.loopStep (.ok []), Act.metaFail 0 "boom"]
          ++ List.replicate k (Act.loopStep (.ok [])))).events
  ∧ (runD [jPlain "u0", jResolved "u1" "i1" "t1"] [false, false]
        ([Act.loopStep (.ok []), Act.metaFail 0 "boom"]
          ++ List.replicate k (Act.loopStep (.ok [])))).invoked = [1]
  ∧ (runD [jPlain "u0", jResolved "u1" "i1" "t1"] [false, false]
        ([Act.loopStep (.ok []), Act.metaFail 0 "boom"]
          ++ List.replicate k (Act.loopStep (.ok [])))).finished = false := by
  have hpre : runD [jPlain "u0", jResolved "u1" "i1" "t1"] [false, false]
      [Act.loopStep (.ok []), Act.metaFail 0 "boom"] = c2state 0 := by decide
  have hone : ∀ st : Nat, step (c2state st) (Act.loopStep (.ok []))
      = c2state (if 2 ≤ st + 1 then 0 else st + 1) := by
    intro st
    have h1 : needsMetadata (jPlain "u0") = true := by decide
    have h2 : (itemKeyUrl (jPlain "u0")).truthy = true := by decide
    simp only [step, loopStepD, c2state]
    simp [h1, h2]
    split_ifs <;> rfl
  have hcyc : ∀ (j st : Nat), ∃ st2,
      (List.replicate j (Act.loopStep (.ok []))).foldl step (c2state st)
        = c2state st2 := by
    intro j
    induction j with
    | zero => intro st; exact ⟨st, rfl⟩
    | succ n ihn =>
      intro st
      rw [List.replicate_succ, List.foldl_cons, hone st]
      exact ihn _
  have hsplit : (runD [jPlain "u0", jResolved "u1" "i1" "t1"] [false, false]
        ([Act.loopStep (.ok []), Act.metaFail 0 "boom"]
          ++ List.replicate k (Act.loopStep (.ok []))))
      = (List.replicate k (Act.loopStep (.ok []))).foldl step (c2state 0) := by
    rw [runD, List.foldl_append]
    rw [show (List.foldl step (initState [jPlain "u0", jResolved "u1" "i1" "t1"]
      [false, false]) [Act.loopStep (.ok []), Act.metaFail 0 "boom"]) = c2state 0
      from hpre]
  obtain ⟨st2, hst⟩ := hcyc k 0
  rw [hsplit, hst]
  refine ⟨rfl, ?_, rfl, rfl⟩
  show Ev.finishedAll ∉ (c2state 0).events
  decide

/-- C3 counterexample: calling stop while job 0 is downloading and jobs 1
and 2 are pending ends job 0 with a `Stopped` status, never invokes the
download collaborator for jobs 1 and 2, and fires `finished_all` — but jobs
1 and 2 receive no `Stopped` status at all (the full trace holds no event
for them), refuting that pending jobs transition to Stopped. -/
theorem c3_counterexample :
    (runD [jResolved "u0" "i0" "t0", jResolved "u1" "i1" "t1", jResolved "u2" "i2" "t2"]
        [false, false, false] [Act.loopStep (.stopSignal [])]).events
      = [Ev.status 0 "Starting...", Ev.status 0 "Stopped", Ev.finishedAll]
  ∧ (runD [jResolved "u0" "i0" "t0", jResolved "u1" "i1" "t1", jResolved "u2" "i2" "t2"]
        [false, false, false] [Act.loopStep (.stopSignal [])]).invoked = [0] := by
  constructor <;> decide

/-- C3 (amended): when stop arrives during the download of job 0 with jobs
1 and 2 pending, job 0 ends with status `Stopped` (not an error), the
download collaborator is never invoked for jobs 1 and 2 no matter what
happens afterwards, and the run is finished; but jobs 1 and 2 never receive
a `Stopped` status — any later event for them can only be a pause/resume
notification. -/
theorem c3_stop_amended (rest : List Act) :
    (runD [jResolved "u0" "i0" "t0", jResolved "u1" "i1" "t1", jResolved "u2" "i2" "t2"]
        [false, false, false] ([Act.loopStep (.stopSignal [])] ++ rest)).invoked = [0]
  ∧ Ev.status 0 "Stopped" ∈ (runD [jResolved "u0" "i0" "t0", jResolved "u1" "i1" "t1", jResolved "u2" "i2" "t2"]
        [false, false, false] ([Act.loopStep (.stopSignal [])] ++ rest)).events
  ∧ (runD [jResolved "u0" "i0" "t0", jResolved "u1" "i1" "t1", jResolved "u2" "i2" "t2"]
        [false, false, false] ([Act.loopStep (.stopSignal [])] ++ rest)).events.all c3good = true
  ∧ (runD [jResolved "u0" "i0" "t0", jResolved "u1" "i1" "t1", jResolved "u2" "i2" "t2"]
        [false, false, false] ([Act.loopStep (.stopSignal [])] ++ rest)).finished = true := by
  have hstep1 : ∀ (a : Act) (s : DlState), s.finished = true → s.meta = [] →
      (step s a).finished = true ∧ (step s a).meta = []
    ∧ (step s a).invoked = s.invoked
    ∧ ∃ extra : List Ev, (step s a).events = s.events ++ extra
        ∧ extra.all (fun e => match e with
            | Ev.status _ m => m == "Paused" || m == "Resuming..."
            | _ => false) = true := by
    intro a s hf hm
    cases a with
    | loopStep dl =>
      have hs : step s (Act.loopStep dl) = s := by simp [step, loopStepD, hf]
      rw [hs]
      exact ⟨hf, hm, rfl, [], by simp, rfl⟩
    | metaOk idx meta tb =>
      have hs : step s (Act.metaOk idx meta tb) = s := by simp [step, metaOkD, hm]
      rw [hs]
      exact ⟨hf, hm, rfl, [], by simp, rfl⟩
    | metaFail idx err =>
      have hs : step s (Act.metaFail idx err) = s := by simp [step, metaFailD, hm]
      rw [hs]
      exact ⟨hf, hm, rfl, [], by simp, rfl⟩
    | callStop =>
      exact ⟨hf, hm, rfl, [], by simp [step, stopD], rfl⟩
    | callPause =>
      refine ⟨hf, hm, rfl,
        (List.range s.items.length).map (fun i => Ev.status i "Paused"), rfl, ?_⟩
      simp [List.all_eq_true]
    | callResume =>
      refine ⟨hf, hm, rfl,
        (List.range s.items.length).map (fun i => Ev.status i "Resuming..."), rfl, ?_⟩
      simp [List.all_eq_true]
  have hfold : ∀ (acts : List Act) (s : DlState), s.finished = true → s.meta = [] →
      (acts.foldl step s).finished = true ∧ (acts.foldl step s).meta = []
    ∧ (acts.foldl step s).invoked = s.invoked
    ∧ ∃ extra : List Ev, (acts.foldl step s).events = s.events ++ extra
        ∧ extra.all (fun e => match e with
            | Ev.status _ m => m == "Paused" || m == "Resuming..."
            | _ => false) = true := by
    intro acts
    induction acts with
    | nil =>
      intro s hf hm
      exact ⟨hf, hm, rfl, [], by simp, rfl⟩
    | cons a rest2 ih =>
      intro s hf hm
      obtain ⟨h1, h2, h3, extra1, he1, ha1⟩ := hstep1 a s hf hm
      obtain ⟨g1, g2, g3, extra2, ge2, ga2⟩ := ih (step s a) h1 h2
      rw [List.foldl_cons]
      refine ⟨g1, g2, by rw [g3, h3], extra1 ++ extra2, ?_, ?_⟩
      · rw [ge2, he1, List.append_assoc]
      · simp only [List.all_append, ha1, ga2, Bool.and_true]
  have hbase : runD [jResolved "u0" "i0" "t0", jResolved "u1" "i1" "t1", jResolved "u2" "i2" "t2"]
      [false, false, false] [Act.loopStep (.stopSignal [])] = c3stopped := by decide
  have hsplit : (runD [jResolved "u0" "i0" "t0", jResolved "u1" "i1" "t1", jResolved "u2" "i2" "t2"]
        [false, false, false] ([Act.loopStep (.stopSignal [])] ++ rest)) = rest.foldl step c3stopped := by
    rw [runD, List.foldl_append, List.foldl_cons, List.foldl_nil]
    rw [show step (initState [jResolved "u0" "i0" "t0", jResolved "u1" "i1" "t1", jResolved "u2" "i2" "t2"]
      [false, false, false]) (Act.loopStep (.stopSignal [])) = c3stopped from hbase]
  obtain ⟨g1, g2, g3, extra, ge, ga⟩ := hfold rest c3stopped rfl rfl
  rw [hsplit]
  refine ⟨by rw [g3]; rfl, ?_, ?_, g1⟩
  · rw [ge]
    exact List.mem_append_left _ (by decide)
  · rw [ge, List.all_append]
    have h2 : extra.all c3good = true := by
      rw [List.all_eq_true] at ga ⊢
      intro e he
      have := ga e he
      cases e with
      | status j m =>
        simp only [c3good]
        simp only at this
        rw [this]
        simp
      | progress a b c d => simp at this
      | thumb a => simp at this
      | finishedAll => simp at this
    rw [h2]
    decide

/-- C4 (amended): the pause/resume control flag is idempotent — a second
`pause()` (resp. `resume()`) leaves the gate exactly as a single call does —
but each call unconditionally re-emits one status event per item, so a
repeated call is not an observational no-op: the double call appends one
extra round of per-item statuses. -/
theorem c4_pause_resume_flag_idempotent (s : DlState) :
    (pauseD (pauseD s)).pauseSet = (pauseD s).pauseSet
  ∧ (resumeD (resumeD s)).pauseSet = (resumeD s).pauseSet
  ∧ (pauseD (pauseD s)).events = (pauseD s).events
      ++ (List.range s.items.length).map (fun i => Ev.status i "Paused")
  ∧ (resumeD (resumeD s)).events = (resumeD s).events
      ++ (List.range s.items.length).map (fun i => Ev.status i "Resuming...") :=
  ⟨rfl, rfl, rfl, rfl⟩

/-- C4 counterexample: on a one-item downloader, calling pause twice in a
row emits two `Paused` status events where a single call emits one — the
two runs differ in their observable signal traces, so the double call is
not equivalent to a single call. -/
theorem c4_counterexample :
    (pauseD (pauseD (initState [jResolved "u0" "i0" "t0"] [false]))).events
      ≠ (pauseD (initState [jResolved "u0" "i0" "t0"] [false])).events := by
  decide

/-- C9 counterexample: the watch URL with start_radio=1 but no list
parameter satisfies the radio/auto-mix criterion of the claim, yet the
classifier labels it "single" (stripping the start_radio parameter) and the
handler starts a fetch — the external extraction collaborator IS invoked
for it. -/
theorem c9_counterexample :
    classifyUrl "https://www.youtube.com/watch?v=abc&start_radio=1"
      = ("single", "https://www.youtube.com/watch?v=abc")
  ∧ handleUrl (classifyUrl "https://www.youtube.com/watch?v=abc&start_radio=1").1
        (classifyUrl "https://www.youtube.com/watch?v=abc&start_radio=1").2
      = .fetch "https://www.youtube.com/watch?v=abc"
  ∧ invokesFetcher (handleUrl (classifyUrl "https://www.youtube.com/watch?v=abc&start_radio=1").1
        (classifyUrl "https://www.youtube.com/watch?v=abc&start_radio=1").2) = true := by
  refine ⟨by decide, by decide, by decide⟩

/-- C9 (amended): every URL the classifier actually labels "radio" (a watch
or youtu.be URL whose list parameter starts with RD, or with start_radio=1
— for watch URLs only alongside a non-empty list parameter) is reported as
an immediate user-facing error and the extraction collaborator is never
invoked for it; a watch URL with start_radio=1 but no list parameter is
instead classified "single" and fetched. -/
theorem c9_radio_rejected (url : String) (h : (classifyUrl url).1 = "radio") :
    handleUrl (classifyUrl url).1 (classifyUrl url).2
      = .showError "Radio playlists are not supported."
  ∧ invokesFetcher (handleUrl (classifyUrl url).1 (classifyUrl url).2) = false := by
  rw [h]
  exact ⟨rfl, rfl⟩

/-- Witness for `c9_radio_rejected`: a watch URL with an RD list parameter
is classified radio and only yields the error action. -/
theorem c9_radio_rejected_witness :
    (classifyUrl "https://www.youtube.com/watch?v=abc&list=RDabc").1 = "radio"
  ∧ handleUrl (classifyUrl "https://www.youtube.com/watch?v=abc&list=RDabc").1
        (classifyUrl "https://www.youtube.com/watch?v=abc&list=RDabc").2
      = .showError "Radio playlists are not supported." := by
  exact ⟨by decide, (c9_radio_rejected "https://www.youtube.com/watch?v=abc&list=RDabc" (by decide)).1⟩

/-- C10: the URL classifier is total and yields one of exactly four tags —
single, playlist, radio or unknown — paired with a normalized URL; every
URL whose parsed host is not a recognized YouTube host, and every string
whose parsing raises, yields ("unknown", input unchanged). -/
theorem c10_classifier_total (url : String) :
    ((classifyUrl url).1 = "single" ∨ (classifyUrl url).1 = "playlist"
      ∨ (classifyUrl url).1 = "radio" ∨ (classifyUrl url).1 = "unknown")
  ∧ (pyUrlparse url = none → classifyUrl url = ("unknown", url))
  ∧ (∀ u, pyUrlparse url = some u → VIDEO_HOSTS.contains u.netloc = false →
      classifyUrl url = ("unknown", url)) := by
  refine ⟨?_, ?_, ?_⟩
  · rcases hp : pyUrlparse url with _ | u
    · simp [classifyUrl, hp]
    · simp only [classifyUrl, hp]
      split_ifs <;> simp
  · intro hp
    simp [classifyUrl, hp]
  · intro u hp hh
    have hmem : ¬ (u.netloc ∈ VIDEO_HOSTS) := by simpa using hh
    simp [classifyUrl, hp, hmem]

/-- Witness for `c10_classifier_total`: a string that makes CPython urlparse
raise (mismatched bracket in the authority) and a URL on an unrecognized host
both classify as unknown with the input returned unchanged. -/
theorem c10_classifier_total_witness :
    classifyUrl "https://[oops/watch" = ("unknown", "https://[oops/watch")
  ∧ classifyUrl "https://example.com/watch?v=a"
      = ("unknown", "https://example.com/watch?v=a") := by
  refine ⟨(c10_classifier_total "https://[oops/watch").2.1 (by decide),
    (c10_classifier_total "https://example.com/watch?v=a").2.2
      ⟨"https", "example.com", "/watch", "", "v=a", ""⟩ (by decide) (by decide)⟩

end YtConv